import Mathlib

/-
  Verification development for the gpt5-chat-app backend (src/app.py).

  Shallow embedding notes:
  - A Turn is a message dict with a role and a list of typed content
    segments, as built by create_new_conversation and the appends in chat.
  - The session store (get_conversation / save_conversation /
    delete_conversation) is modelled as an explicit state holding the
    in-memory dict conversations_memory and the redis key space. Each
    redis round trip may raise; a Bool flag per call says whether the
    redis call succeeds (true) or raises (false). redis_enabled and
    redis_client are set together at startup, so one Bool models both.
  - json.dumps / json.loads are modelled by convToJson / convFromJson over
    a small JSON value type; redis holds JSON values. The app only ever
    writes serialized conversations to redis, so convFromJson is total on
    every value that actually occurs there.
  - External services (embedding, vector search, chat completion) are
    opaque collaborators: each call site takes the outcome of the external
    call as an argument (Except models a raised exception).
  - Python list mutation matters in chat: when get_conversation served the
    object out of conversations_memory, the conversation.append calls
    mutate the stored entry in place. The model tracks this aliasing
    explicitly (servedFromMemory).
-/

namespace GPT5Chat

/-- One typed content segment of a message, always a dict with a type tag
    equal to "text" and a text payload in this app. -/
structure Seg where
  type : String
  text : String
deriving DecidableEq

/-- One role-tagged message unit of a conversation. -/
structure Turn where
  role : String
  content : List Seg
deriving DecidableEq

/-- The fixed instructional preamble, the single element of
    create_new_conversation in app.py. -/
def systemPreamble : Turn :=
  ⟨"system", [⟨"text", "You are an AI assistant that helps people find information."⟩]⟩

/-- Mirrors create_new_conversation in app.py. -/
def create_new_conversation : List Turn := [systemPreamble]

/-- The RAG context turn appended by chat when retrieve_context returned
    non-empty text. -/
def contextTurn (context : String) : Turn :=
  ⟨"system", [⟨"text", "Relevant context from documents:\n" ++ context⟩]⟩

/-- The user turn appended by chat: the message text is used verbatim. -/
def userTurn (msg : String) : Turn := ⟨"user", [⟨"text", msg⟩]⟩

/-- The assistant turn appended by chat from the completion reply. -/
def assistantTurn (msg : String) : Turn := ⟨"assistant", [⟨"text", msg⟩]⟩

/-- JSON values as produced by json.dumps on a conversation: strings,
    arrays and objects suffice for this data model. -/
inductive Json where
  | str : String → Json
  | arr : List Json → Json
  | obj : List (String × Json) → Json

/-- Serialization of one content segment, following the dict literals in
    app.py (insertion order type, text). -/
def segToJson (s : Seg) : Json :=
  Json.obj [("type", Json.str s.type), ("text", Json.str s.text)]

/-- Parse of one serialized content segment. -/
def segFromJson : Json → Option Seg
  | Json.obj [("type", Json.str ty), ("text", Json.str tx)] => some ⟨ty, tx⟩
  | _ => none

/-- Parse of a list of serialized segments. -/
def segsFromJson : List Json → Option (List Seg)
  | [] => some []
  | j :: js =>
    match segFromJson j, segsFromJson js with
    | some s, some ss => some (s :: ss)
    | _, _ => none

/-- Serialization of one turn (insertion order role, content). -/
def turnToJson (t : Turn) : Json :=
  Json.obj [("role", Json.str t.role), ("content", Json.arr (t.content.map segToJson))]

/-- Parse of one serialized turn. -/
def turnFromJson : Json → Option Turn
  | Json.obj [("role", Json.str r), ("content", Json.arr js)] =>
    match segsFromJson js with
    | some ss => some ⟨r, ss⟩
    | none => none
  | _ => none

/-- Parse of a list of serialized turns. -/
def turnsFromJson : List Json → Option (List Turn)
  | [] => some []
  | j :: js =>
    match turnFromJson j, turnsFromJson js with
    | some t, some ts => some (t :: ts)
    | _, _ => none

/-- json.dumps on a conversation. -/
def convToJson (c : List Turn) : Json := Json.arr (c.map turnToJson)

/-- json.loads on a cached redis value, read back as a conversation. -/
def convFromJson : Json → Option (List Turn)
  | Json.arr js => turnsFromJson js
  | _ => none

theorem segFromJson_segToJson (s : Seg) : segFromJson (segToJson s) = some s := rfl

theorem segsFromJson_map (ss : List Seg) :
    segsFromJson (ss.map segToJson) = some ss := by
  induction ss with
  | nil => rfl
  | cons s ss ih => simp [segsFromJson, segFromJson_segToJson, ih, List.map_cons]

theorem turnFromJson_turnToJson (t : Turn) :
    turnFromJson (turnToJson t) = some t := by
  simp [turnToJson, turnFromJson, segsFromJson_map]

theorem turnsFromJson_map (ts : List Turn) :
    turnsFromJson (ts.map turnToJson) = some ts := by
  induction ts with
  | nil => rfl
  | cons t ts ih => simp [turnsFromJson, turnFromJson_turnToJson, ih, List.map_cons]

/-- Serialize-then-deserialize is the identity on conversations. -/
theorem convFromJson_convToJson (c : List Turn) :
    convFromJson (convToJson c) = some c := by
  simp [convToJson, convFromJson, turnsFromJson_map]

/-- Point update of a string-keyed dict. -/
def dictSet {α : Type} (m : String → Option α) (k : String) (v : α) :
    String → Option α :=
  fun q => if q = k then some v else m q

/-- Point removal from a string-keyed dict. -/
def dictDel {α : Type} (m : String → Option α) (k : String) :
    String → Option α :=
  fun q => if q = k then none else m q

@[simp] theorem dictSet_self {α : Type} (m : String → Option α) (k : String) (v : α) :
    dictSet m k v k = some v := by simp [dictSet]

theorem dictSet_other {α : Type} (m : String → Option α) (k q : String) (v : α)
    (h : q ≠ k) : dictSet m k v q = m q := by simp [dictSet, h]

@[simp] theorem dictDel_self {α : Type} (m : String → Option α) (k : String) :
    dictDel m k k = none := by simp [dictDel]

theorem dictDel_other {α : Type} (m : String → Option α) (k q : String)
    (h : q ≠ k) : dictDel m k q = m q := by simp [dictDel, h]

/-- The session store state: the in-memory dict conversations_memory, the
    redis key space, and the startup flag redis_enabled (the redis client
    object exists exactly when the flag is set). -/
structure StoreState where
  memory : String → Option (List Turn)
  redis : String → Option Json
  redisEnabled : Bool

/-- The store state at process start: both backends empty. -/
def initStore (enabled : Bool) : StoreState :=
  ⟨fun _ => none, fun _ => none, enabled⟩

/-- Derived redis key for a conversation identifier, as in app.py. -/
def redisKey (id : String) : String := "conv:" ++ id

/-- Mirrors get_conversation: with redis enabled, try the redis read
    (redisOk false means the call raised, which is caught and logged);
    a present cached value is parsed with json.loads; otherwise fall
    through to the in-memory dict. -/
def get_conversation (st : StoreState) (id : String) (redisOk : Bool) :
    Option (List Turn) :=
  if st.redisEnabled && redisOk then
    match st.redis (redisKey id) with
    | some j => convFromJson j
    | none => st.memory id
  else st.memory id

/-- Mirrors save_conversation: write the in-memory dict unconditionally,
    then, with redis enabled, attempt setex with the 604800 second TTL
    (expiry itself is not modelled); returns whether the redis write
    succeeded. -/
def save_conversation (st : StoreState) (id : String)
    (conversation_data : List Turn) (redisOk : Bool) : Bool × StoreState :=
  let st1 : StoreState := { st with memory := dictSet st.memory id conversation_data }
  if st1.redisEnabled then
    if redisOk then
      (true, { st1 with redis := dictSet st1.redis (redisKey id) (convToJson conversation_data) })
    else (false, st1)
  else (false, st1)

/-- Mirrors delete_conversation: remove the in-memory entry, then, with
    redis enabled, attempt the redis delete; returns whether the redis
    delete succeeded. -/
def delete_conversation (st : StoreState) (id : String) (redisOk : Bool) :
    Bool × StoreState :=
  let st1 : StoreState := { st with memory := dictDel st.memory id }
  if st1.redisEnabled then
    if redisOk then
      (true, { st1 with redis := dictDel st1.redis (redisKey id) })
    else (false, st1)
  else (false, st1)

/-- Embedding vectors are opaque to the glue logic in this app; only their
    identity matters, so the carrier is kept abstract as a list of
    integers passed through unchanged. -/
abbrev Embedding := List Int

/-- One vector-search hit, restricted by select to its title and chunk
    attributes. -/
structure Doc where
  title : String
  chunk : String
deriving DecidableEq

/-- Mirrors retrieve_context: with no search client configured return the
    empty string at once; otherwise call the embedding service, then the
    search service, join the chunk values of the hits with a blank-line
    separator in result order, and map any raised exception to the empty
    string. The two external call outcomes are arguments (error means the
    call raised). -/
def retrieve_context (searchConfigured : Bool)
    (embedRes : Except Unit Embedding)
    (searchRes : Embedding → Except Unit (List Doc)) : String :=
  if searchConfigured then
    match embedRes with
    | Except.error _ => ""
    | Except.ok emb =>
      match searchRes emb with
      | Except.error _ => ""
      | Except.ok docs => String.intercalate "\n\n" (docs.map Doc.chunk)
  else ""

/-- Python str.strip as used on the query field of the search endpoint:
    drop leading and trailing whitespace characters. -/
def strip (s : String) : String :=
  ⟨((s.data.dropWhile Char.isWhitespace).reverse.dropWhile Char.isWhitespace).reverse⟩

/-- Response of the vector_search endpoint: status code plus either the
    results list (title and chunk per hit) or an error message. -/
structure SearchResponse where
  status : Nat
  results : Option (List (String × String))
  error : Option String
deriving DecidableEq

/-- Mirrors the vector_search endpoint: read the query field (absent means
    empty), strip it, 400 on empty, 500 when no search client is
    configured, then embedding call and vector search with exceptions
    mapped to 500, else 200 with title and chunk per hit. -/
def vector_search (searchConfigured : Bool) (query : Option String)
    (embedRes : Except String Embedding)
    (searchRes : Embedding → Except String (List Doc)) : SearchResponse :=
  let q := strip (query.getD "")
  if q = "" then ⟨400, none, some "query is required"⟩
  else if !searchConfigured then ⟨500, none, some "RAG search is not configured"⟩
  else
    match embedRes with
    | Except.error e => ⟨500, none, some e⟩
    | Except.ok emb =>
      match searchRes emb with
      | Except.error e => ⟨500, none, some e⟩
      | Except.ok docs => ⟨200, some (docs.map fun d => (d.title, d.chunk)), none⟩

/-- One chat request: the two optional JSON body fields, plus the outcomes
    of every external interaction the handler performs (search
    configuration, embedding and search call used by retrieve_context,
    chat completion call, and whether each redis round trip succeeds). -/
structure ChatCall where
  message : Option String
  conversation_id : Option String
  searchConfigured : Bool
  embedRes : Except Unit Embedding
  searchRes : Embedding → Except Unit (List Doc)
  completion : Except String String
  redisGetOk : Bool
  redisSaveOk : Bool

/-- Response of the chat endpoint. -/
structure ChatResponse where
  status : Nat
  response : Option String
  storage : Option String
  error : Option String
deriving DecidableEq

/-- The conversation value the chat handler works on: the stored one when
    get_conversation returned a truthy (non-empty) list, else a fresh
    create_new_conversation, following the or-expression in app.py. -/
def servedConv (st : StoreState) (id : String) (redisOk : Bool) : List Turn :=
  match get_conversation st id redisOk with
  | some c => if c.isEmpty then create_new_conversation else c
  | none => create_new_conversation

/-- Whether the list object the chat handler appends to is the very object
    stored in conversations_memory, so that the appends mutate the store
    in place: true exactly when get_conversation fell through to the
    in-memory dict and found a truthy (non-empty) list there. -/
def servedFromMemory (st : StoreState) (id : String) (redisOk : Bool) : Bool :=
  (if st.redisEnabled && redisOk then (st.redis (redisKey id)).isNone else true)
    && (match st.memory id with
        | some c => !c.isEmpty
        | none => false)

/-- Turns appended before the completion call: the optional context turn
    then the user turn. -/
def ctxList (context : String) : List Turn :=
  if context = "" then [] else [contextTurn context]

/-- The conversation identifier of a chat request (body field with its
    fallback constant). -/
def chatCid (call : ChatCall) : String := call.conversation_id.getD "default"

/-- The message text of a chat request (body field, absent read as empty). -/
def chatMsg (call : ChatCall) : String := call.message.getD ""

/-- The context text retrieved during a chat request. -/
def chatCtx (call : ChatCall) : String :=
  retrieve_context call.searchConfigured call.embedRes call.searchRes

/-- The conversation value after all three possible appends of a
    successful chat request with assistant reply a. -/
def newConv (st : StoreState) (call : ChatCall) (a : String) : List Turn :=
  servedConv st (chatCid call) call.redisGetOk ++ ctxList (chatCtx call)
    ++ [userTurn (chatMsg call), assistantTurn a]

/-- Mirrors the chat endpoint. Reject an empty or absent message with 400
    before touching any store. Load or create the conversation, inject the
    retrieved context turn when non-empty, append the user turn (each
    append mutating the in-memory entry when the list was served from
    conversations_memory), call the completion gateway (500 on a raised
    exception, with no rollback of the appends), append the assistant
    turn, save, and report which backend absorbed the write. -/
def chat (st : StoreState) (call : ChatCall) : ChatResponse × StoreState :=
  if chatMsg call = "" then
    (⟨400, none, none, some "Message is required"⟩, st)
  else
    let conv2 := servedConv st (chatCid call) call.redisGetOk
      ++ ctxList (chatCtx call) ++ [userTurn (chatMsg call)]
    let stMid := if servedFromMemory st (chatCid call) call.redisGetOk then
      { st with memory := dictSet st.memory (chatCid call) conv2 } else st
    match call.completion with
    | Except.error e => (⟨500, none, none, some e⟩, stMid)
    | Except.ok a =>
      let conv3 := conv2 ++ [assistantTurn a]
      let stMid2 := if servedFromMemory st (chatCid call) call.redisGetOk then
        { stMid with memory := dictSet stMid.memory (chatCid call) conv3 } else stMid
      let p := save_conversation stMid2 (chatCid call) conv3 call.redisSaveOk
      (⟨200, some a, some (if p.1 then "redis" else "memory"), none⟩, p.2)

/-- Mirrors the reset endpoint: best-effort delete of both backends,
    always 200, reporting which backend confirmed the delete. -/
def reset_conversation (st : StoreState) (conversation_id : Option String)
    (redisOk : Bool) : ChatResponse × StoreState :=
  let p := delete_conversation st (conversation_id.getD "default") redisOk
  (⟨200, some "Conversation reset successfully",
    some (if p.1 then "redis" else "memory"), none⟩, p.2)

/-- States of the session store reachable through the HTTP surface: the
    empty store at startup, then any sequence of chat and reset requests.
    These are the only handlers that write to the store. -/
inductive Reachable : StoreState → Prop
  | init (enabled : Bool) : Reachable (initStore enabled)
  | step_chat (st : StoreState) (call : ChatCall) :
      Reachable st → Reachable (chat st call).2
  | step_reset (st : StoreState) (id : Option String) (redisOk : Bool) :
      Reachable st → Reachable (reset_conversation st id redisOk).2

theorem save_memory_eq (st : StoreState) (id : String) (conv : List Turn)
    (redisOk : Bool) :
    (save_conversation st id conv redisOk).2.memory = dictSet st.memory id conv := by
  cases hE : st.redisEnabled <;> cases redisOk <;> simp [save_conversation, hE]

theorem save_false_eq (st : StoreState) (id : String) (conv : List Turn)
    (redisOk : Bool) (h : st.redisEnabled = false ∨ redisOk = false) :
    save_conversation st id conv redisOk =
      (false, { st with memory := dictSet st.memory id conv }) := by
  rcases h with h | h <;> simp [save_conversation, h]

theorem save_enabled_ok_eq (st : StoreState) (id : String) (conv : List Turn)
    (hE : st.redisEnabled = true) :
    save_conversation st id conv true =
      (true, { memory := dictSet st.memory id conv,
               redis := dictSet st.redis (redisKey id) (convToJson conv),
               redisEnabled := st.redisEnabled }) := by
  simp [save_conversation, hE]

theorem get_after_save (st : StoreState) (id : String) (conv : List Turn)
    (redisOk : Bool) :
    get_conversation (save_conversation st id conv redisOk).2 id redisOk = some conv := by
  cases hE : st.redisEnabled <;> cases redisOk <;>
    simp [save_conversation, get_conversation, hE, dictSet, convFromJson_convToJson]

/-- C5: deleting a conversation and immediately reading the same
    identifier back yields absent, under any consistent redis behavior
    (the redis round trips of the two operations both succeed, both
    raise, or redis is disabled). -/
theorem C5_reset_then_get_absent (st : StoreState) (id : String) (redisOk : Bool) :
    get_conversation (delete_conversation st id redisOk).2 id redisOk = none := by
  cases hE : st.redisEnabled <;> cases redisOk <;>
    simp [delete_conversation, get_conversation, hE, dictDel]

/-- C6: when the redis write raises or redis is disabled, save returns
    false, yet the in-memory dict holds the new conversation and a
    subsequent get (under the same redis reachability) returns it. -/
theorem C6_save_degrades_to_memory (st : StoreState) (id : String)
    (conv : List Turn) (redisOk : Bool)
    (h : st.redisEnabled = false ∨ redisOk = false) :
    (save_conversation st id conv redisOk).1 = false ∧
    (save_conversation st id conv redisOk).2.memory id = some conv ∧
    get_conversation (save_conversation st id conv redisOk).2 id redisOk = some conv := by
  refine ⟨?_, ?_, get_after_save st id conv redisOk⟩
  · rw [save_false_eq st id conv redisOk h]
  · rw [save_memory_eq]; exact dictSet_self st.memory id conv

theorem C6_witness :
    (save_conversation (initStore false) "a" [systemPreamble] true).1 = false ∧
    (save_conversation (initStore false) "a" [systemPreamble] true).2.memory "a"
      = some [systemPreamble] ∧
    get_conversation (save_conversation (initStore false) "a" [systemPreamble] true).2
      "a" true = some [systemPreamble] :=
  C6_save_degrades_to_memory (initStore false) "a" [systemPreamble] true (Or.inl rfl)

/-- C9: with redis enabled and reachable, save writes the serialized
    conversation, reports success, and get reads back a conversation equal
    field for field: serialize then deserialize is the identity. -/
theorem C9_save_then_get_roundtrip (st : StoreState) (id : String)
    (conv : List Turn) (hE : st.redisEnabled = true) :
    (save_conversation st id conv true).1 = true ∧
    (save_conversation st id conv true).2.redis (redisKey id) = some (convToJson conv) ∧
    get_conversation (save_conversation st id conv true).2 id true = some conv ∧
    convFromJson (convToJson conv) = some conv := by
  rw [save_enabled_ok_eq st id conv hE]
  exact ⟨rfl, dictSet_self st.redis (redisKey id) (convToJson conv),
    by simp [get_conversation, hE, convFromJson_convToJson],
    convFromJson_convToJson conv⟩

theorem C9_witness :
    (save_conversation (initStore true) "a" [systemPreamble] true).1 = true ∧
    (save_conversation (initStore true) "a" [systemPreamble] true).2.redis (redisKey "a")
      = some (convToJson [systemPreamble]) ∧
    get_conversation (save_conversation (initStore true) "a" [systemPreamble] true).2
      "a" true = some [systemPreamble] ∧
    convFromJson (convToJson [systemPreamble]) = some [systemPreamble] :=
  C9_save_then_get_roundtrip (initStore true) "a" [systemPreamble] rfl

/-- C8: retrieve_context returns the empty string whenever no search
    backend is configured or the embedding call or the search call raised,
    and otherwise returns the chunk values of the hits joined with a
    blank-line separator in backend order; as a total function it never
    raises. -/
theorem C8_retrieve_context_spec (cfg : Bool) (e : Except Unit Embedding)
    (s : Embedding → Except Unit (List Doc)) :
    (cfg = false → retrieve_context cfg e s = "") ∧
    (∀ u, e = Except.error u → retrieve_context cfg e s = "") ∧
    (∀ v u, e = Except.ok v → s v = Except.error u → retrieve_context cfg e s = "") ∧
    (∀ v docs, cfg = true → e = Except.ok v → s v = Except.ok docs →
      retrieve_context cfg e s = String.intercalate "\n\n" (docs.map Doc.chunk)) := by
  refine ⟨?_, ?_, ?_, ?_⟩
  · intro h; simp [retrieve_context, h]
  · intro u h; cases cfg <;> simp [retrieve_context, h]
  · intro v u he hs; cases cfg <;> simp [retrieve_context, he, hs]
  · intro v docs hc he hs; simp [retrieve_context, hc, he, hs]

theorem C8_witness :
    retrieve_context true (Except.ok [])
      (fun _ => Except.ok [⟨"t1", "c1"⟩, ⟨"t2", "c2"⟩]) = "c1\n\nc2" := by
  have h := (C8_retrieve_context_spec true (Except.ok [])
      (fun _ => Except.ok [⟨"t1", "c1"⟩, ⟨"t2", "c2"⟩])).2.2.2
      [] [⟨"t1", "c1"⟩, ⟨"t2", "c2"⟩] rfl rfl rfl
  exact h.trans (by decide)

/-- C2 counterexample: with the vector-search backend unconfigured, a
    request with an empty query is answered 400, not 500, because the
    empty-query check precedes the configuration check. -/
theorem C2_counterexample :
    (vector_search false (some "") (Except.error "e")
      (fun _ => Except.error "e")).status = 400 ∧
    ¬ (vector_search false (some "") (Except.error "e")
      (fun _ => Except.error "e")).status = 500 := by decide

/-- C2 amended: with the vector-search backend unconfigured, every request
    whose query is non-empty after stripping is answered 500 with the
    fixed error body; an empty or absent query is answered 400 first. -/
theorem C2_unconfigured_500 (query : Option String)
    (e : Except String Embedding) (s : Embedding → Except String (List Doc))
    (hq : strip (query.getD "") ≠ "") :
    vector_search false query e s = ⟨500, none, some "RAG search is not configured"⟩ := by
  simp [vector_search, hq]

theorem C2_witness :
    vector_search false (some "q") (Except.error "x") (fun _ => Except.error "x")
      = ⟨500, none, some "RAG search is not configured"⟩ :=
  C2_unconfigured_500 (some "q") (Except.error "x") (fun _ => Except.error "x") (by decide)

/-- C10: a chat request whose message field is absent or empty is answered
    400 with the fixed error body and leaves the whole store state (both
    backends) untouched. -/
theorem C10_empty_message_400 (st : StoreState) (call : ChatCall)
    (h : call.message = none ∨ call.message = some "") :
    chat st call = (⟨400, none, none, some "Message is required"⟩, st) := by
  rcases h with h | h <;> simp [chat, chatMsg, h]

def c10call : ChatCall :=
  { message := none, conversation_id := some "x", searchConfigured := true,
    embedRes := Except.ok [], searchRes := fun _ => Except.ok [],
    completion := Except.ok "reply", redisGetOk := true, redisSaveOk := true }

theorem C10_witness :
    chat (initStore true) c10call
      = (⟨400, none, none, some "Message is required"⟩, initStore true) :=
  C10_empty_message_400 (initStore true) c10call (Or.inl rfl)

theorem served_mem_spec (st : StoreState) (id : String) (redisOk : Bool)
    (h : servedFromMemory st id redisOk = true) :
    ∃ c, st.memory id = some c ∧ c ≠ [] ∧ servedConv st id redisOk = c := by
  unfold servedFromMemory at h
  rw [Bool.and_eq_true] at h
  obtain ⟨h1, h2⟩ := h
  cases hm : st.memory id with
  | none => rw [hm] at h2; exact absurd h2 (by simp)
  | some c =>
    rw [hm] at h2
    have hne : c.isEmpty = false := by simpa using h2
    have hget : get_conversation st id redisOk = some c := by
      unfold get_conversation
      by_cases hE : (st.redisEnabled && redisOk) = true
      · rw [if_pos hE] at h1 ⊢
        have hr : st.redis (redisKey id) = none := by
          simpa [Option.isNone_iff_eq_none] using h1
        rw [hr, hm]
      · rw [if_neg hE]; exact hm
    refine ⟨c, rfl, by simpa using hne, ?_⟩
    unfold servedConv
    rw [hget]
    simp [hne]

theorem chat_ok_facts (st : StoreState) (call : ChatCall) (a : String)
    (hmsg : chatMsg call ≠ "") (hcomp : call.completion = Except.ok a) :
    (chat st call).1.status = 200 ∧
    (chat st call).2.memory (chatCid call) = some (newConv st call a) ∧
    get_conversation (chat st call).2 (chatCid call) call.redisSaveOk
      = some (newConv st call a) := by
  simp only [chat, if_neg hmsg, hcomp]
  refine ⟨trivial, ?_, ?_⟩
  · rw [save_memory_eq, dictSet_self]
    simp [newConv, List.append_assoc]
  · rw [get_after_save]
    simp [newConv, List.append_assoc]

/-- C1: every successful chat request stores, under the request
    identifier, exactly the served conversation followed by the context
    turn when retrieved context was non-empty, then the user turn, then
    the assistant turn: a length increase of exactly 2 without context and
    exactly 3 with context, in that order; the stored value is also what a
    subsequent get returns. -/
theorem C1_chat_appends_two_or_three (st : StoreState) (call : ChatCall) (a : String)
    (hmsg : chatMsg call ≠ "") (hcomp : call.completion = Except.ok a) :
    (chat st call).1.status = 200 ∧
    (chat st call).2.memory (chatCid call) = some (newConv st call a) ∧
    get_conversation (chat st call).2 (chatCid call) call.redisSaveOk
      = some (newConv st call a) ∧
    newConv st call a = servedConv st (chatCid call) call.redisGetOk ++
      (if chatCtx call = "" then [userTurn (chatMsg call), assistantTurn a]
       else [contextTurn (chatCtx call), userTurn (chatMsg call), assistantTurn a]) ∧
    (newConv st call a).length =
      (servedConv st (chatCid call) call.redisGetOk).length
        + (if chatCtx call = "" then 2 else 3) := by
  obtain ⟨h1, h2, h3⟩ := chat_ok_facts st call a hmsg hcomp
  refine ⟨h1, h2, h3, ?_, ?_⟩ <;>
    by_cases hc : chatCtx call = "" <;>
      simp [newConv, ctxList, hc, List.append_assoc]

def c1call : ChatCall :=
  { message := some "hi", conversation_id := none, searchConfigured := false,
    embedRes := Except.ok [], searchRes := fun _ => Except.error (),
    completion := Except.ok "yo", redisGetOk := true, redisSaveOk := true }

theorem C1_witness :
    (chat (initStore false) c1call).1.status = 200 ∧
    (chat (initStore false) c1call).2.memory (chatCid c1call)
      = some (newConv (initStore false) c1call "yo") ∧
    get_conversation (chat (initStore false) c1call).2 (chatCid c1call)
      c1call.redisSaveOk = some (newConv (initStore false) c1call "yo") ∧
    newConv (initStore false) c1call "yo"
      = servedConv (initStore false) (chatCid c1call) c1call.redisGetOk ++
        (if chatCtx c1call = "" then [userTurn (chatMsg c1call), assistantTurn "yo"]
         else [contextTurn (chatCtx c1call), userTurn (chatMsg c1call), assistantTurn "yo"]) ∧
    (newConv (initStore false) c1call "yo").length =
      (servedConv (initStore false) (chatCid c1call) c1call.redisGetOk).length
        + (if chatCtx c1call = "" then 2 else 3) :=
  C1_chat_appends_two_or_three (initStore false) c1call "yo" (by decide) rfl

def c3call : ChatCall :=
  { message := some "  hi  ", conversation_id := none, searchConfigured := false,
    embedRes := Except.ok [], searchRes := fun _ => Except.error (),
    completion := Except.ok "ok", redisGetOk := true, redisSaveOk := true }

/-- C3 counterexample: a chat message with surrounding whitespace is
    stored in the user turn fully verbatim; the stored conversation is not
    the one with the stripped message text that the claim predicts. -/
theorem C3_counterexample :
    (chat (initStore false) c3call).2.memory "default"
      = some [systemPreamble, userTurn "  hi  ", assistantTurn "ok"] ∧
    ¬ (chat (initStore false) c3call).2.memory "default"
      = some [systemPreamble, userTurn (strip "  hi  "), assistantTurn "ok"] := by
  decide

/-- C3 amended: for every non-empty message accepted by chat, the appended
    user turn contains the message text fully verbatim, with no trimming
    of any kind (in particular no leading or trailing whitespace removal)
    and no length cap. -/
theorem C3_user_turn_verbatim (st : StoreState) (call : ChatCall) (m a : String)
    (hm : call.message = some m) (hne : m ≠ "") (hcomp : call.completion = Except.ok a) :
    ∃ pre, (chat st call).2.memory (chatCid call)
      = some (pre ++ [Turn.mk "user" [Seg.mk "text" m], assistantTurn a]) := by
  have hmsg : chatMsg call ≠ "" := by simpa [chatMsg, hm] using hne
  obtain ⟨-, h2, -⟩ := chat_ok_facts st call a hmsg hcomp
  refine ⟨servedConv st (chatCid call) call.redisGetOk ++ ctxList (chatCtx call), ?_⟩
  rw [h2]
  have hm2 : chatMsg call = m := by simp [chatMsg, hm]
  simp [newConv, hm2, userTurn, List.append_assoc]

theorem C3_witness :
    ∃ pre, (chat (initStore false) c3call).2.memory (chatCid c3call)
      = some (pre ++ [Turn.mk "user" [Seg.mk "text" "  hi  "], assistantTurn "ok"]) :=
  C3_user_turn_verbatim (initStore false) c3call "  hi  " "ok" rfl (by decide) rfl

/-- C4: when the conversation was served out of the in-memory dict and the
    completion call raises, the endpoint answers 500, yet the in-memory
    entry has already been mutated in place to hold the context turn (if
    any) and the user turn; the redis key space is untouched and nothing
    is rolled back. -/
theorem C4_error_mutates_memory (st : StoreState) (call : ChatCall) (e : String)
    (hmem : servedFromMemory st (chatCid call) call.redisGetOk = true)
    (hmsg : chatMsg call ≠ "") (hcomp : call.completion = Except.error e) :
    (chat st call).1 = ⟨500, none, none, some e⟩ ∧
    (∃ c, st.memory (chatCid call) = some c ∧
      (chat st call).2.memory (chatCid call)
        = some (c ++ ctxList (chatCtx call) ++ [userTurn (chatMsg call)])) ∧
    (chat st call).2.redis = st.redis := by
  obtain ⟨c, hc, -, hserved⟩ := served_mem_spec st (chatCid call) call.redisGetOk hmem
  refine ⟨?_, ⟨c, hc, ?_⟩, ?_⟩
  · simp only [chat, if_neg hmsg, hcomp]
  · simp only [chat, if_neg hmsg, hcomp, hmem, if_true]
    rw [hserved]
    exact dictSet_self _ _ _
  · simp only [chat, if_neg hmsg, hcomp, hmem, if_true]

def c4store : StoreState :=
  { memory := dictSet (fun _ => none) "default" [systemPreamble],
    redis := fun _ => none, redisEnabled := false }

def c4call : ChatCall :=
  { message := some "hi", conversation_id := none, searchConfigured := false,
    embedRes := Except.ok [], searchRes := fun _ => Except.error (),
    completion := Except.error "boom", redisGetOk := true, redisSaveOk := true }

theorem C4_witness :
    (chat c4store c4call).1 = ⟨500, none, none, some "boom"⟩ ∧
    (∃ c, c4store.memory (chatCid c4call) = some c ∧
      (chat c4store c4call).2.memory (chatCid c4call)
        = some (c ++ ctxList (chatCtx c4call) ++ [userTurn (chatMsg c4call)])) ∧
    (chat c4store c4call).2.redis = c4store.redis :=
  C4_error_mutates_memory c4store c4call "boom" (by decide) (by decide) rfl

/-- A well-formed stored conversation: its first turn is the fixed system
    preamble and no other turn equals the preamble. -/
def goodConv (c : List Turn) : Prop :=
  c.head? = some systemPreamble ∧ c.count systemPreamble = 1

/-- Invariant of the whole session store: every in-memory entry is a
    well-formed conversation and every redis entry is the serialization of
    a well-formed conversation. -/
def StoreInv (st : StoreState) : Prop :=
  (∀ id c, st.memory id = some c → goodConv c) ∧
  (∀ k j, st.redis k = some j → ∃ c, j = convToJson c ∧ goodConv c)

theorem goodConv_create : goodConv create_new_conversation := by
  constructor
  · rfl
  · decide

theorem userTurn_ne_preamble (m : String) : userTurn m ≠ systemPreamble := by
  intro h
  have hr : "user" = "system" := congrArg Turn.role h
  exact absurd hr (by decide)

theorem assistantTurn_ne_preamble (m : String) : assistantTurn m ≠ systemPreamble := by
  intro h
  have hr : "assistant" = "system" := congrArg Turn.role h
  exact absurd hr (by decide)

theorem contextTurn_ne_preamble (s : String) : contextTurn s ≠ systemPreamble := by
  intro h
  have h2 : "Relevant context from documents:\n" ++ s
      = "You are an AI assistant that helps people find information." := by
    simpa [contextTurn, systemPreamble] using h
  have h3 := congrArg String.data h2
  rw [show ("Relevant context from documents:\n" ++ s).data
      = 'R' :: ("elevant context from documents:\n" ++ s).data from rfl] at h3
  rw [show ("You are an AI assistant that helps people find information.").data
      = 'Y' :: ("ou are an AI assistant that helps people find information.").data
      from rfl] at h3
  injection h3 with h4 h5
  exact absurd h4 (by decide)

theorem ctxList_ne_preamble (ctx : String) :
    ∀ t ∈ ctxList ctx, t ≠ systemPreamble := by
  intro t ht
  unfold ctxList at ht
  by_cases hc : ctx = ""
  · rw [if_pos hc] at ht; simp at ht
  · rw [if_neg hc] at ht
    have : t = contextTurn ctx := by simpa using ht
    rw [this]
    exact contextTurn_ne_preamble ctx

theorem goodConv_append (c ts : List Turn) (hc : goodConv c)
    (h : ∀ t ∈ ts, t ≠ systemPreamble) : goodConv (c ++ ts) := by
  obtain ⟨h1, h2⟩ := hc
  cases c with
  | nil => simp at h1
  | cons a c =>
    have hts : ts.count systemPreamble = 0 :=
      List.count_eq_zero.mpr (fun hmem => h _ hmem rfl)
    constructor
    · simpa using h1
    · rw [List.cons_append, List.count_cons, List.count_append, hts]
      rw [List.count_cons] at h2
      omega

theorem get_good (st : StoreState) (hinv : StoreInv st) (id : String) (ok : Bool)
    (c : List Turn) (h : get_conversation st id ok = some c) : goodConv c := by
  unfold get_conversation at h
  by_cases hE : (st.redisEnabled && ok) = true
  · rw [if_pos hE] at h
    cases hr : st.redis (redisKey id) with
    | none => rw [hr] at h; exact hinv.1 id c h
    | some j =>
      rw [hr] at h
      have h2 : convFromJson j = some c := h
      obtain ⟨c2, hj, hg⟩ := hinv.2 (redisKey id) j hr
      subst hj
      rw [convFromJson_convToJson] at h2
      exact Option.some.inj h2 ▸ hg
  · rw [if_neg hE] at h; exact hinv.1 id c h

theorem servedConv_good (st : StoreState) (hinv : StoreInv st) (id : String)
    (ok : Bool) : goodConv (servedConv st id ok) := by
  unfold servedConv
  cases hg : get_conversation st id ok with
  | none => exact goodConv_create
  | some c =>
    show goodConv (if c.isEmpty = true then create_new_conversation else c)
    by_cases he : c.isEmpty = true
    · rw [if_pos he]; exact goodConv_create
    · rw [if_neg he]; exact get_good st hinv id ok c hg

theorem mem_update_inv (st : StoreState) (hinv : StoreInv st) (id : String)
    (c : List Turn) (hc : goodConv c) :
    StoreInv { memory := dictSet st.memory id c, redis := st.redis,
               redisEnabled := st.redisEnabled } := by
  constructor
  · intro id2 c2 h
    have h2 : dictSet st.memory id c id2 = some c2 := h
    unfold dictSet at h2
    by_cases he : id2 = id
    · rw [if_pos he] at h2; exact Option.some.inj h2 ▸ hc
    · rw [if_neg he] at h2; exact hinv.1 id2 c2 h2
  · intro k j h
    exact hinv.2 k j h

theorem save_redis_eq (st : StoreState) (id : String) (conv : List Turn)
    (redisOk : Bool) :
    (save_conversation st id conv redisOk).2.redis =
      if st.redisEnabled && redisOk then
        dictSet st.redis (redisKey id) (convToJson conv)
      else st.redis := by
  cases hE : st.redisEnabled <;> cases redisOk <;> simp [save_conversation, hE]

theorem save_inv (st : StoreState) (hinv : StoreInv st) (id : String)
    (conv : List Turn) (redisOk : Bool) (hc : goodConv conv) :
    StoreInv (save_conversation st id conv redisOk).2 := by
  constructor
  · intro id2 c2 h
    have h2 : dictSet st.memory id conv id2 = some c2 := by
      rw [← save_memory_eq st id conv redisOk]; exact h
    unfold dictSet at h2
    by_cases he : id2 = id
    · rw [if_pos he] at h2; exact Option.some.inj h2 ▸ hc
    · rw [if_neg he] at h2; exact hinv.1 id2 c2 h2
  · intro k j h
    rw [save_redis_eq] at h
    by_cases hE : (st.redisEnabled && redisOk) = true
    · rw [if_pos hE] at h
      unfold dictSet at h
      by_cases hk : k = redisKey id
      · rw [if_pos hk] at h
        exact ⟨conv, (Option.some.inj h).symm, hc⟩
      · rw [if_neg hk] at h; exact hinv.2 k j h
    · rw [if_neg hE] at h; exact hinv.2 k j h

theorem delete_memory_eq (st : StoreState) (id : String) (redisOk : Bool) :
    (delete_conversation st id redisOk).2.memory = dictDel st.memory id := by
  cases hE : st.redisEnabled <;> cases redisOk <;> simp [delete_conversation, hE]

theorem delete_redis_eq (st : StoreState) (id : String) (redisOk : Bool) :
    (delete_conversation st id redisOk).2.redis =
      if st.redisEnabled && redisOk then dictDel st.redis (redisKey id)
      else st.redis := by
  cases hE : st.redisEnabled <;> cases redisOk <;> simp [delete_conversation, hE]

theorem delete_inv (st : StoreState) (hinv : StoreInv st) (id : String)
    (redisOk : Bool) : StoreInv (delete_conversation st id redisOk).2 := by
  constructor
  · intro id2 c2 h
    have h2 : dictDel st.memory id id2 = some c2 := by
      rw [← delete_memory_eq st id redisOk]; exact h
    unfold dictDel at h2
    by_cases he : id2 = id
    · rw [if_pos he] at h2; exact absurd h2 (by simp)
    · rw [if_neg he] at h2; exact hinv.1 id2 c2 h2
  · intro k j h
    rw [delete_redis_eq] at h
    by_cases hE : (st.redisEnabled && redisOk) = true
    · rw [if_pos hE] at h
      unfold dictDel at h
      by_cases hk : k = redisKey id
      · rw [if_pos hk] at h; exact absurd h (by simp)
      · rw [if_neg hk] at h; exact hinv.2 k j h
    · rw [if_neg hE] at h; exact hinv.2 k j h

theorem conv2_good (st : StoreState) (hinv : StoreInv st) (call : ChatCall) :
    goodConv (servedConv st (chatCid call) call.redisGetOk
      ++ ctxList (chatCtx call) ++ [userTurn (chatMsg call)]) := by
  apply goodConv_append
  · exact goodConv_append _ _ (servedConv_good st hinv (chatCid call) call.redisGetOk)
      (ctxList_ne_preamble (chatCtx call))
  · intro t ht
    have : t = userTurn (chatMsg call) := by simpa using ht
    rw [this]
    exact userTurn_ne_preamble (chatMsg call)

theorem chat_inv (st : StoreState) (call : ChatCall) (hinv : StoreInv st) :
    StoreInv (chat st call).2 := by
  by_cases hm : chatMsg call = ""
  · simp only [chat, if_pos hm]; exact hinv
  · cases hcomp : call.completion with
    | error e =>
      simp only [chat, if_neg hm, hcomp]
      by_cases hsm : servedFromMemory st (chatCid call) call.redisGetOk = true
      · rw [if_pos hsm]
        exact mem_update_inv st hinv (chatCid call) _ (conv2_good st hinv call)
      · rw [if_neg hsm]; exact hinv
    | ok a =>
      simp only [chat, if_neg hm, hcomp]
      have hc3 : goodConv ((servedConv st (chatCid call) call.redisGetOk
          ++ ctxList (chatCtx call) ++ [userTurn (chatMsg call)])
          ++ [assistantTurn a]) := by
        apply goodConv_append _ _ (conv2_good st hinv call)
        intro t ht
        have : t = assistantTurn a := by simpa using ht
        rw [this]
        exact assistantTurn_ne_preamble a
      by_cases hsm : servedFromMemory st (chatCid call) call.redisGetOk = true
      · rw [if_pos hsm, if_pos hsm]
        exact save_inv _ (mem_update_inv _
          (mem_update_inv st hinv (chatCid call) _ (conv2_good st hinv call))
          (chatCid call) _ hc3) (chatCid call) _ call.redisSaveOk hc3
      · rw [if_neg hsm, if_neg hsm]
        exact save_inv st hinv (chatCid call) _ call.redisSaveOk hc3

theorem reachable_inv (st : StoreState) (h : Reachable st) : StoreInv st := by
  induction h with
  | init enabled =>
    exact ⟨fun id c h => by simp [initStore] at h,
           fun k j h => by simp [initStore] at h⟩
  | step_chat st call hr ih => exact chat_inv st call ih
  | step_reset st id ok hr ih =>
    simp only [reset_conversation]
    exact delete_inv st ih (id.getD "default") ok

/-- C7: in every store state reachable through the HTTP surface, every
    stored conversation (in-memory, or serialized in redis) begins with
    the fixed system preamble and contains it exactly once: it is created
    at conversation-creation time and every operation only appends turns
    after it. -/
theorem C7_preamble_invariant (st : StoreState) (h : Reachable st) (id : String)
    (c : List Turn)
    (hc : st.memory id = some c ∨
      ∃ j, st.redis (redisKey id) = some j ∧ convFromJson j = some c) :
    c.head? = some systemPreamble ∧ c.count systemPreamble = 1 := by
  have hinv := reachable_inv st h
  rcases hc with hm | ⟨j, hj, hparse⟩
  · exact hinv.1 id c hm
  · obtain ⟨c2, hjc, hg⟩ := hinv.2 (redisKey id) j hj
    subst hjc
    rw [convFromJson_convToJson] at hparse
    exact Option.some.inj hparse ▸ hg

def c7call : ChatCall :=
  { message := some "hello", conversation_id := none, searchConfigured := false,
    embedRes := Except.ok [], searchRes := fun _ => Except.error (),
    completion := Except.ok "yo", redisGetOk := true, redisSaveOk := true }

theorem C7_witness :
    ([systemPreamble, userTurn "hello", assistantTurn "yo"] : List Turn).head?
        = some systemPreamble ∧
    ([systemPreamble, userTurn "hello", assistantTurn "yo"] : List Turn).count
        systemPreamble = 1 :=
  C7_preamble_invariant (chat (initStore false) c7call).2
    (Reachable.step_chat (initStore false) c7call (Reachable.init false)) "default"
    [systemPreamble, userTurn "hello", assistantTurn "yo"] (Or.inl (by decide))

end GPT5Chat
